import Mathlib

/-!
Verification of the fan-control daemon in `fans.py`.

The numeric fan curve (`min_speed`, `max_speed`, `target_speed`) is embedded
over exact rationals.  The Python source computes with IEEE-754 doubles, but
for every integer temperature the exact value of each expression is a rational
with denominator dividing 300, so its distance to any integer it does not equal
is at least 1/300, while the accumulated double rounding error is below 2⁻⁴⁰;
at the points where the exact value is an integer (temperature a multiple of 30
away from the threshold) the double computation is exact.  Hence Python's
`int(...)` truncation agrees with truncation of the exact rational, and the
rational model is faithful.
-/

namespace Fans

/-- Temperature lower threshold, from `T_MIN, T_MAX = 50, 80` in fans.py. -/
def T_MIN : ℤ := 50

/-- Temperature upper threshold. -/
def T_MAX : ℤ := 80

/-- Minimum fan speed of the safe band, from `S_MIN, S_MAX = 30, 99`. -/
def S_MIN : ℤ := 30

/-- Maximum fan speed of the safe band. -/
def S_MAX : ℤ := 99

/-- `SCALE = (S_MAX - S_MIN)/float(T_MAX - T_MIN)**2` in fans.py. -/
def SCALE : ℚ := ((S_MAX : ℚ) - (S_MIN : ℚ)) / ((T_MAX : ℚ) - (T_MIN : ℚ)) ^ 2

/-- Python's `int(...)` applied to a rational: truncation toward zero. -/
def pyInt (q : ℚ) : ℤ := if q < 0 then -Rat.floor (-q) else Rat.floor q

/-- `min_speed` from fans.py:
`if t < T_MIN: return S_MIN` / `return int(min(SCALE*(t - T_MIN)**2 + S_MIN, S_MAX))`. -/
def min_speed (t : ℤ) : ℤ :=
  if t < T_MIN then S_MIN
  else pyInt (min (SCALE * ((t : ℚ) - (T_MIN : ℚ)) ^ 2 + (S_MIN : ℚ)) (S_MAX : ℚ))

/-- `max_speed` from fans.py:
`if t > T_MAX: return S_MAX` / `return int(max(S_MAX - SCALE*(t - T_MAX)**2, S_MIN))`. -/
def max_speed (t : ℤ) : ℤ :=
  if t > T_MAX then S_MAX
  else pyInt (max ((S_MAX : ℚ) - SCALE * ((t : ℚ) - (T_MAX : ℚ)) ^ 2) (S_MIN : ℚ))

/-- `target_speed` from fans.py:
`l, u = min_speed(t), max_speed(t)` / `return min(max(s, l), u), l, u`. -/
def target_speed (s t : ℤ) : ℤ × ℤ × ℤ :=
  (min (max s (min_speed t)) (max_speed t), min_speed t, max_speed t)

/-- Fan-curve scale factor as the spec states it: `SCALE = (S_MAX - S_MIN)/(T_MAX - T_MIN)^2`
with `S_MAX = 99`, `S_MIN = 30`, `T_MAX = 80`, `T_MIN = 50` written as literals. -/
def specSCALE : ℚ := ((99 : ℚ) - 30) / ((80 : ℚ) - 50) ^ 2

/-- The minimum-speed curve exactly as the spec sentence states it, for comparison with
the source-derived `min_speed`. -/
def spec_min_speed (t : ℤ) : ℤ :=
  if t < 50 then 30 else pyInt (min (specSCALE * ((t : ℚ) - 50) ^ 2 + 30) 99)

/-- The maximum-speed curve exactly as the spec sentence states it, for comparison with
the source-derived `max_speed`. -/
def spec_max_speed (t : ℤ) : ℤ :=
  if t > 80 then 99 else pyInt (max ((99 : ℚ) - specSCALE * ((t : ℚ) - 80) ^ 2) 30)

/-- Python dict assignment `d[k] = v` on an insertion-ordered association list: it replaces
the value in place when the key is present and appends otherwise. -/
def dictInsert {α : Type} (k : String) (v : α) : List (String × α) → List (String × α)
  | [] => [(k, v)]
  | (k2, v2) :: rest => if k2 = k then (k, v) :: rest else (k2, v2) :: dictInsert k v rest

/-- Decimal digit characters of a natural number, most significant first; reference shape
for `Nat.toDigits 10`. -/
def charsOf (n : ℕ) : List Char :=
  if _h : n < 10 then [Nat.digitChar n]
  else charsOf (n / 10) ++ [Nat.digitChar (n % 10)]
decreasing_by exact Nat.div_lt_self (by omega) (by omega)

/-- The setup loop of the `xservers` context manager in fans.py:
`for d, bus in enumerate(buses): displays[bus] = ':' + str(d); servers[bus] = xserver(...)`.
`d` is the enumeration index; `failAt = some k` models the `Popen` call inside `xserver`
raising on the k-th call (so no process is created by that call and the loop aborts).
A process handle is the index of the `xserver` call that created it.  Returns
(displays, servers, spawned handles, whether setup raised). -/
def setupGo (failAt : Option ℕ) :
    List String → ℕ → List (String × String) → List (String × ℕ) → List ℕ →
    List (String × String) × List (String × ℕ) × List ℕ × Bool
  | [], _, displays, servers, spawned => (displays, servers, spawned, false)
  | bus :: rest, d, displays, servers, spawned =>
    let displays2 := dictInsert bus (":" ++ toString d) displays
    if failAt = some d then (displays2, servers, spawned, true)
    else setupGo failAt rest (d + 1) displays2 (dictInsert bus d servers) (spawned ++ [d])

/-- A full run of the `xservers` context manager: the setup loop, the body (whose outcome is
irrelevant because the `finally` block runs on every exit path), and the `finally` block,
which calls `terminate()` on every entry of the `servers` dict.  Returns
(displays, spawned handles, terminated handles, setup raised). -/
def xserversRun (buses : List String) (failAt : Option ℕ) :
    List (String × String) × List ℕ × List ℕ × Bool :=
  let r := setupGo failAt buses 0 [] [] []
  (r.1, r.2.2.1, r.2.1.map Prod.snd, r.2.2.2)

/-- Observable actions of the `manage_fans` loop. -/
inductive FanEvent where
  | readTemp : String → ℤ → FanEvent
  | setSpeed : String → ℤ → FanEvent
  | sleep : ℕ → FanEvent
  | release : String → FanEvent
deriving DecidableEq

/-- One pass over `displays.items()` in the body of the `manage_fans` while-loop.
`temps bus = none` models `nvidia-smi` raising while reading that GPU's temperature;
`setOk display = false` models `nvidia-settings` raising when `set_speed` is attempted.
Returns the emitted events together with `some` updated speeds dict, or `none` when an
exception escaped the pass. -/
def processGPUs (temps : String → Option ℤ) (setOk : String → Bool) :
    List (String × String) → (String → ℤ) → List FanEvent × Option (String → ℤ)
  | [], speeds => ([], some speeds)
  | (bus, display) :: rest, speeds =>
    match temps bus with
    | none => ([], none)
    | some temp =>
      let s := (target_speed (speeds bus) temp).1
      if s ≠ speeds bus then
        if setOk display then
          let next := processGPUs temps setOk rest (fun b => if b = bus then s else speeds b)
          (FanEvent.readTemp bus temp :: FanEvent.setSpeed display s :: next.1, next.2)
        else ([FanEvent.readTemp bus temp], none)
      else
        let next := processGPUs temps setOk rest speeds
        (FanEvent.readTemp bus temp :: next.1, next.2)

/-- The `while True` loop of `manage_fans`, run for at most `fuel` iterations (iteration
index `i` selects the behavior of the external tools in that iteration), together with the
`finally` block: on an exception the loop stops and fan control is released
(`GPUFanControlState=0`) for every display in the mapping.  Returns the event trace and
whether the loop exited through the exception path (fuel exhaustion returns `false`:
the daemon is still running). -/
def manageFansGo (ds : List (String × String)) (temps : ℕ → String → Option ℤ)
    (setOk : ℕ → String → Bool) : ℕ → ℕ → (String → ℤ) → List FanEvent × Bool
  | 0, _, _ => ([], false)
  | fuel + 1, i, speeds =>
    match processGPUs (temps i) (setOk i) ds speeds with
    | (evs, some speeds2) =>
      let r := manageFansGo ds temps setOk fuel (i + 1) speeds2
      (evs ++ FanEvent.sleep 5 :: r.1, r.2)
    | (evs, none) =>
      (evs ++ ds.map (fun p => FanEvent.release p.2), true)

/-- `manage_fans(displays)` from fans.py: speeds start at 0 for every bus
(`speeds = {b: 0 for b in displays}`). -/
def manage_fans (ds : List (String × String)) (temps : ℕ → String → Option ℤ)
    (setOk : ℕ → String → Bool) (fuel : ℕ) : List FanEvent × Bool :=
  manageFansGo ds temps setOk fuel 0 (fun _ => 0)

theorem rat_floor_eq_int_floor (q : ℚ) : Rat.floor q = Int.floor q := rfl

theorem pyInt_of_nonneg {q : ℚ} (h : 0 ≤ q) : pyInt q = Int.floor q := by
  rw [pyInt, if_neg (not_lt.mpr h), rat_floor_eq_int_floor]

theorem SCALE_eq : SCALE = 23 / 300 := by
  norm_num [SCALE, S_MAX, S_MIN, T_MAX, T_MIN]

theorem SCALE_nonneg : 0 ≤ SCALE := by
  rw [SCALE_eq]; norm_num

theorem inner_min_ge (t : ℤ) :
    ((S_MIN : ℤ) : ℚ) ≤ min (SCALE * ((t : ℚ) - (T_MIN : ℚ)) ^ 2 + (S_MIN : ℚ)) (S_MAX : ℚ) := by
  refine le_min ?_ ?_
  · have h := mul_nonneg SCALE_nonneg (sq_nonneg ((t : ℚ) - (T_MIN : ℚ)))
    linarith
  · exact_mod_cast (by decide : S_MIN ≤ S_MAX)

theorem inner_max_le (t : ℤ) :
    max ((S_MAX : ℚ) - SCALE * ((t : ℚ) - (T_MAX : ℚ)) ^ 2) (S_MIN : ℚ) ≤ ((S_MAX : ℤ) : ℚ) := by
  refine max_le ?_ ?_
  · have h := mul_nonneg SCALE_nonneg (sq_nonneg ((t : ℚ) - (T_MAX : ℚ)))
    linarith
  · exact_mod_cast (by decide : S_MIN ≤ S_MAX)

theorem min_speed_lb (t : ℤ) : S_MIN ≤ min_speed t := by
  rw [min_speed]
  split
  · exact le_rfl
  · rw [pyInt_of_nonneg (le_trans (by exact_mod_cast (by decide : (0:ℤ) ≤ S_MIN)) (inner_min_ge t))]
    exact Int.le_floor.mpr (inner_min_ge t)

theorem min_speed_ub (t : ℤ) : min_speed t ≤ S_MAX := by
  rw [min_speed]
  split
  · decide
  · rw [pyInt_of_nonneg (le_trans (by exact_mod_cast (by decide : (0:ℤ) ≤ S_MIN)) (inner_min_ge t))]
    calc Int.floor (min (SCALE * ((t : ℚ) - (T_MIN : ℚ)) ^ 2 + (S_MIN : ℚ)) (S_MAX : ℚ))
        ≤ Int.floor ((S_MAX : ℚ)) := Int.floor_mono (min_le_right _ _)
      _ = S_MAX := Int.floor_intCast S_MAX

theorem max_speed_lb (t : ℤ) : S_MIN ≤ max_speed t := by
  rw [max_speed]
  split
  · decide
  · rw [pyInt_of_nonneg (le_trans (by exact_mod_cast (by decide : (0:ℤ) ≤ S_MIN)) (le_max_right _ _))]
    exact Int.le_floor.mpr (le_max_right _ _)

theorem max_speed_ub (t : ℤ) : max_speed t ≤ S_MAX := by
  rw [max_speed]
  split
  · exact le_rfl
  · rw [pyInt_of_nonneg (le_trans (by exact_mod_cast (by decide : (0:ℤ) ≤ S_MIN)) (le_max_right _ _))]
    calc Int.floor (max ((S_MAX : ℚ) - SCALE * ((t : ℚ) - (T_MAX : ℚ)) ^ 2) (S_MIN : ℚ))
        ≤ Int.floor (((S_MAX : ℤ) : ℚ)) := Int.floor_mono (inner_max_le t)
      _ = S_MAX := Int.floor_intCast S_MAX

theorem min_speed_le_max_speed (t : ℤ) : min_speed t ≤ max_speed t := by
  by_cases h1 : t < T_MIN
  · rw [min_speed, if_pos h1]
    exact max_speed_lb t
  · by_cases h2 : t > T_MAX
    · rw [max_speed, if_pos h2]
      exact min_speed_ub t
    · rw [min_speed, if_neg h1, max_speed, if_neg h2]
      rw [pyInt_of_nonneg (le_trans (by exact_mod_cast (by decide : (0:ℤ) ≤ S_MIN)) (inner_min_ge t)),
          pyInt_of_nonneg (le_trans (by exact_mod_cast (by decide : (0:ℤ) ≤ S_MIN)) (le_max_right _ _))]
      apply Int.floor_mono
      have ht1 : ((T_MIN : ℤ) : ℚ) ≤ (t : ℚ) := by exact_mod_cast not_lt.mp h1
      have ht2 : (t : ℚ) ≤ ((T_MAX : ℤ) : ℚ) := by exact_mod_cast not_lt.mp h2
      have ht1' : (50 : ℚ) ≤ (t : ℚ) := by
        simpa [T_MIN] using ht1
      have ht2' : (t : ℚ) ≤ (80 : ℚ) := by
        simpa [T_MAX] using ht2
      have key : SCALE * ((t : ℚ) - (T_MIN : ℚ)) ^ 2 + (S_MIN : ℚ) ≤
          (S_MAX : ℚ) - SCALE * ((t : ℚ) - (T_MAX : ℚ)) ^ 2 := by
        rw [SCALE_eq]
        simp only [T_MIN, T_MAX, S_MIN, S_MAX]
        push_cast
        nlinarith [mul_nonneg (by linarith : (0:ℚ) ≤ (t : ℚ) - 50) (by linarith : (0:ℚ) ≤ 80 - (t : ℚ))]
      exact le_trans (min_le_left _ _) (le_trans key (le_max_left _ _))

theorem min_speed_mono {t1 t2 : ℤ} (h : t1 ≤ t2) : min_speed t1 ≤ min_speed t2 := by
  by_cases h1 : t1 < T_MIN
  · rw [min_speed, if_pos h1]
    exact min_speed_lb t2
  · have h2 : ¬ t2 < T_MIN := fun hc => h1 (lt_of_le_of_lt h hc)
    rw [min_speed, if_neg h1, min_speed, if_neg h2]
    have hq : (0:ℚ) ≤ min (SCALE * ((t1 : ℚ) - (T_MIN : ℚ)) ^ 2 + (S_MIN : ℚ)) (S_MAX : ℚ) :=
      le_trans (by exact_mod_cast (by decide : (0:ℤ) ≤ S_MIN)) (inner_min_ge t1)
    have hq2 : (0:ℚ) ≤ min (SCALE * ((t2 : ℚ) - (T_MIN : ℚ)) ^ 2 + (S_MIN : ℚ)) (S_MAX : ℚ) :=
      le_trans (by exact_mod_cast (by decide : (0:ℤ) ≤ S_MIN)) (inner_min_ge t2)
    rw [pyInt_of_nonneg hq, pyInt_of_nonneg hq2]
    apply Int.floor_mono
    have hsq : ((t1 : ℚ) - (T_MIN : ℚ)) ^ 2 ≤ ((t2 : ℚ) - (T_MIN : ℚ)) ^ 2 := by
      have hnn : (0:ℚ) ≤ (t1 : ℚ) - (T_MIN : ℚ) := by
        have : ((T_MIN : ℤ) : ℚ) ≤ (t1 : ℚ) := by exact_mod_cast not_lt.mp h1
        linarith
      have hle : (t1 : ℚ) - (T_MIN : ℚ) ≤ (t2 : ℚ) - (T_MIN : ℚ) := by
        have : (t1 : ℚ) ≤ (t2 : ℚ) := by exact_mod_cast h
        linarith
      exact pow_le_pow_left₀ hnn hle 2
    exact min_le_min (add_le_add_right (mul_le_mul_of_nonneg_left hsq SCALE_nonneg) _) le_rfl

theorem max_speed_mono {t1 t2 : ℤ} (h : t1 ≤ t2) : max_speed t1 ≤ max_speed t2 := by
  by_cases h2 : t2 > T_MAX
  · have he : max_speed t2 = S_MAX := by rw [max_speed, if_pos h2]
    rw [he]
    exact max_speed_ub t1
  · have h1 : ¬ t1 > T_MAX := fun hc => h2 (lt_of_lt_of_le hc h)
    rw [max_speed, if_neg h1, max_speed, if_neg h2]
    have hq : (0:ℚ) ≤ max ((S_MAX : ℚ) - SCALE * ((t1 : ℚ) - (T_MAX : ℚ)) ^ 2) (S_MIN : ℚ) :=
      le_trans (by exact_mod_cast (by decide : (0:ℤ) ≤ S_MIN)) (le_max_right _ _)
    have hq2 : (0:ℚ) ≤ max ((S_MAX : ℚ) - SCALE * ((t2 : ℚ) - (T_MAX : ℚ)) ^ 2) (S_MIN : ℚ) :=
      le_trans (by exact_mod_cast (by decide : (0:ℤ) ≤ S_MIN)) (le_max_right _ _)
    rw [pyInt_of_nonneg hq, pyInt_of_nonneg hq2]
    apply Int.floor_mono
    have hsq : ((t2 : ℚ) - (T_MAX : ℚ)) ^ 2 ≤ ((t1 : ℚ) - (T_MAX : ℚ)) ^ 2 := by
      have hc2 : (t2 : ℚ) ≤ (T_MAX : ℚ) := by exact_mod_cast not_lt.mp h2
      have hc12 : (t1 : ℚ) ≤ (t2 : ℚ) := by exact_mod_cast h
      nlinarith [mul_nonneg (by linarith : (0:ℚ) ≤ (t2 : ℚ) - (t1 : ℚ))
        (by linarith : (0:ℚ) ≤ 2 * (T_MAX : ℚ) - (t1 : ℚ) - (t2 : ℚ))]
    exact max_le_max (by nlinarith [mul_le_mul_of_nonneg_left hsq SCALE_nonneg]) le_rfl

theorem min_speed_at_50 : min_speed 50 = 30 := by
  rw [min_speed, if_neg (by decide), SCALE_eq]
  norm_num [T_MIN, S_MIN, S_MAX, pyInt, rat_floor_eq_int_floor]

theorem max_speed_at_50 : max_speed 50 = 30 := by
  rw [max_speed, if_neg (by decide), SCALE_eq]
  norm_num [T_MAX, S_MIN, S_MAX, pyInt, rat_floor_eq_int_floor]

theorem min_speed_at_80 : min_speed 80 = 99 := by
  rw [min_speed, if_neg (by decide), SCALE_eq]
  norm_num [T_MIN, S_MIN, S_MAX, pyInt, rat_floor_eq_int_floor]

theorem max_speed_at_80 : max_speed 80 = 99 := by
  rw [max_speed, if_neg (by decide), SCALE_eq]
  norm_num [T_MAX, S_MIN, S_MAX, pyInt, rat_floor_eq_int_floor]

theorem min_speed_at_65 : min_speed 65 = 47 := by
  rw [min_speed, if_neg (by decide), SCALE_eq]
  norm_num [T_MIN, S_MIN, S_MAX, pyInt, rat_floor_eq_int_floor]

theorem max_speed_at_65 : max_speed 65 = 81 := by
  rw [max_speed, if_neg (by decide), SCALE_eq]
  norm_num [T_MAX, S_MIN, S_MAX, pyInt, rat_floor_eq_int_floor]

theorem min_speed_at_55 : min_speed 55 = 31 := by
  rw [min_speed, if_neg (by decide), SCALE_eq]
  norm_num [T_MIN, S_MIN, S_MAX, pyInt, rat_floor_eq_int_floor]

theorem max_speed_at_55 : max_speed 55 = 51 := by
  rw [max_speed, if_neg (by decide), SCALE_eq]
  norm_num [T_MAX, S_MIN, S_MAX, pyInt, rat_floor_eq_int_floor]

theorem min_speed_at_70 : min_speed 70 = 60 := by
  rw [min_speed, if_neg (by decide), SCALE_eq]
  norm_num [T_MIN, S_MIN, S_MAX, pyInt, rat_floor_eq_int_floor]

theorem max_speed_at_70 : max_speed 70 = 91 := by
  rw [max_speed, if_neg (by decide), SCALE_eq]
  norm_num [T_MAX, S_MIN, S_MAX, pyInt, rat_floor_eq_int_floor]

theorem specSCALE_eq : specSCALE = SCALE := by
  rw [SCALE_eq]; norm_num [specSCALE]

/-- C1: for every current speed `s` and temperature `t`, `target_speed s t` returns a speed
clamped into the band `[min_speed t, max_speed t]`, and that speed always lies inside the safe
band `[S_MIN, S_MAX] = [30, 99]`. -/
theorem target_speed_in_band_and_safe (s t : ℤ) :
    min_speed t ≤ (target_speed s t).1 ∧ (target_speed s t).1 ≤ max_speed t ∧
    S_MIN ≤ (target_speed s t).1 ∧ (target_speed s t).1 ≤ S_MAX := by
  simp only [target_speed]
  have hl : min_speed t ≤ min (max s (min_speed t)) (max_speed t) :=
    le_min (le_max_right _ _) (min_speed_le_max_speed t)
  have hu : min (max s (min_speed t)) (max_speed t) ≤ max_speed t := min_le_right _ _
  exact ⟨hl, hu, le_trans (min_speed_lb t) hl, le_trans hu (max_speed_ub t)⟩

/-- C2: hysteresis — a speed already inside the band `[min_speed t, max_speed t]` is returned
unchanged by `target_speed`. -/
theorem target_speed_hysteresis_identity (s t : ℤ)
    (h1 : min_speed t ≤ s) (h2 : s ≤ max_speed t) :
    (target_speed s t).1 = s := by
  simp only [target_speed]
  rw [max_eq_left h1, min_eq_left h2]

theorem target_speed_hysteresis_identity_witness : (target_speed 50 65).1 = 50 :=
  target_speed_hysteresis_identity 50 65
    (by rw [min_speed_at_65]; decide) (by rw [max_speed_at_65]; decide)

/-- C3: the fan curve of the source (`min_speed`, `max_speed`) agrees, at every integer
temperature, with the clamped quadratic curve exactly as the spec states it
(`spec_min_speed`, `spec_max_speed` with `SCALE = (99-30)/(80-50)^2`). -/
theorem fan_curve_matches_spec (t : ℤ) :
    min_speed t = spec_min_speed t ∧ max_speed t = spec_max_speed t := by
  constructor
  · rw [min_speed, spec_min_speed, specSCALE_eq]
    simp only [T_MIN, S_MIN, S_MAX]
    split
    · rfl
    · congr 1
  · rw [max_speed, spec_max_speed, specSCALE_eq]
    simp only [T_MAX, S_MIN, S_MAX]
    split
    · rfl
    · congr 1

/-- C4, counterexample: the speed component of `target_speed` does depend on the stored
current speed — at temperature 65 the band is `[47, 81]`, so current speeds 50 and 60 are
both returned unchanged and the outputs differ. -/
theorem target_speed_depends_on_current_speed :
    (target_speed 50 65).1 ≠ (target_speed 60 65).1 := by
  simp only [target_speed]
  rw [min_speed_at_65, max_speed_at_65]
  decide

/-- C4, amended: only the band computation of the control law is stateless — the bound
components of `target_speed` do not depend on the current speed `s`, and the speed component
depends on `s` solely through clamping: two current speeds on the same side outside the band
produce the same output. -/
theorem target_speed_bounds_stateless (t s1 s2 : ℤ) :
    ((target_speed s1 t).2 = (target_speed s2 t).2) ∧
    (s1 ≤ min_speed t → s2 ≤ min_speed t →
      (target_speed s1 t).1 = (target_speed s2 t).1) ∧
    (max_speed t ≤ s1 → max_speed t ≤ s2 →
      (target_speed s1 t).1 = (target_speed s2 t).1) := by
  refine ⟨rfl, ?_, ?_⟩
  · intro h1 h2
    simp only [target_speed]
    rw [max_eq_right h1, max_eq_right h2]
  · intro h1 h2
    simp only [target_speed]
    rw [min_eq_right (le_trans h1 (le_max_left _ _)),
        min_eq_right (le_trans h2 (le_max_left _ _))]

theorem target_speed_bounds_stateless_witness :
    (target_speed 10 65).2 = (target_speed 20 65).2 ∧
    (target_speed 10 65).1 = (target_speed 20 65).1 :=
  ⟨(target_speed_bounds_stateless 65 10 20).1,
   (target_speed_bounds_stateless 65 10 20).2.1
     (by rw [min_speed_at_65]; decide) (by rw [min_speed_at_65]; decide)⟩

/-- C9: the hysteresis band is never empty — `min_speed t ≤ max_speed t` for every integer
temperature, the bounds coincide at the endpoints `t = 50` (both 30) and `t = 80` (both 99),
and the clamp in `target_speed` always lands inside `[min_speed t, max_speed t]`. -/
theorem band_nonempty_invariant :
    (∀ t : ℤ, min_speed t ≤ max_speed t) ∧
    (min_speed 50 = 30 ∧ max_speed 50 = 30) ∧
    (min_speed 80 = 99 ∧ max_speed 80 = 99) ∧
    (∀ s t : ℤ, min_speed t ≤ min (max s (min_speed t)) (max_speed t) ∧
      min (max s (min_speed t)) (max_speed t) ≤ max_speed t) :=
  ⟨min_speed_le_max_speed,
   ⟨min_speed_at_50, max_speed_at_50⟩,
   ⟨min_speed_at_80, max_speed_at_80⟩,
   fun _ t => ⟨le_min (le_max_right _ _) (min_speed_le_max_speed t), min_le_right _ _⟩⟩

/-- C10: monotonicity of the fan curve — both bounds and, for a fixed current speed, the
target speed are non-decreasing in the temperature. -/
theorem fan_curve_monotone (t1 t2 s : ℤ) (h : t1 ≤ t2) :
    min_speed t1 ≤ min_speed t2 ∧ max_speed t1 ≤ max_speed t2 ∧
    (target_speed s t1).1 ≤ (target_speed s t2).1 := by
  refine ⟨min_speed_mono h, max_speed_mono h, ?_⟩
  simp only [target_speed]
  exact min_le_min (max_le_max le_rfl (min_speed_mono h)) (max_speed_mono h)

theorem fan_curve_monotone_witness :
    min_speed 55 ≤ min_speed 70 ∧ max_speed 55 ≤ max_speed 70 ∧
    (target_speed 45 55).1 ≤ (target_speed 45 70).1 :=
  fan_curve_monotone 55 70 45 (by decide)

theorem charsOf_lt {n : ℕ} (h : n < 10) : charsOf n = [Nat.digitChar n] := by
  rw [charsOf]
  simp [h]

theorem charsOf_ge {n : ℕ} (h : ¬ n < 10) :
    charsOf n = charsOf (n / 10) ++ [Nat.digitChar (n % 10)] := by
  rw [charsOf]
  simp [h]

theorem charsOf_ne_nil (n : ℕ) : charsOf n ≠ [] := by
  by_cases h : n < 10
  · rw [charsOf_lt h]; simp
  · rw [charsOf_ge h]; simp

theorem digitChar_inj_lt : ∀ m < 10, ∀ n < 10, Nat.digitChar m = Nat.digitChar n → m = n := by
  decide

theorem charsOf_inj : ∀ m n : ℕ, charsOf m = charsOf n → m = n := by
  intro m
  induction m using Nat.strong_induction_on with
  | _ m ih =>
    intro n h
    by_cases hm : m < 10 <;> by_cases hn : n < 10
    · rw [charsOf_lt hm, charsOf_lt hn] at h
      exact digitChar_inj_lt m hm n hn (List.singleton_inj.mp h)
    · rw [charsOf_lt hm, charsOf_ge hn] at h
      have hlen := congrArg List.length h
      simp at hlen
      exact absurd hlen (charsOf_ne_nil _)
    · rw [charsOf_ge hm, charsOf_lt hn] at h
      have hlen := congrArg List.length h
      simp at hlen
      exact absurd hlen (charsOf_ne_nil _)
    · rw [charsOf_ge hm, charsOf_ge hn] at h
      obtain ⟨h1, h2⟩ := List.append_inj' h (by simp)
      have hmod : m % 10 = n % 10 :=
        digitChar_inj_lt _ (Nat.mod_lt _ (by omega)) _ (Nat.mod_lt _ (by omega))
          (List.singleton_inj.mp h2)
      have hdiv : m / 10 = n / 10 :=
        ih (m / 10) (Nat.div_lt_self (by omega) (by omega)) (n / 10) h1
      omega

theorem toDigitsCore_eq_charsOf :
    ∀ (fuel n : ℕ) (ds : List Char), n < fuel →
      Nat.toDigitsCore 10 fuel n ds = charsOf n ++ ds := by
  intro fuel
  induction fuel with
  | zero => intro n ds h; omega
  | succ fuel ih =>
    intro n ds h
    have step : Nat.toDigitsCore 10 (fuel + 1) n ds =
        if n / 10 = 0 then Nat.digitChar (n % 10) :: ds
        else Nat.toDigitsCore 10 fuel (n / 10) (Nat.digitChar (n % 10) :: ds) := rfl
    rw [step]
    by_cases h0 : n / 10 = 0
    · rw [if_pos h0]
      have hn : n < 10 := by omega
      rw [charsOf_lt hn, Nat.mod_eq_of_lt hn]
      rfl
    · rw [if_neg h0]
      rw [ih (n / 10) (Nat.digitChar (n % 10) :: ds) (by omega)]
      conv_rhs => rw [charsOf_ge (show ¬ n < 10 by omega)]
      simp

theorem toDigits_eq_charsOf (n : ℕ) : Nat.toDigits 10 n = charsOf n := by
  rw [Nat.toDigits, toDigitsCore_eq_charsOf (n + 1) n [] (Nat.lt_succ_self n)]
  simp

theorem nat_repr_inj {m n : ℕ} (h : Nat.repr m = Nat.repr n) : m = n := by
  rw [Nat.repr, Nat.repr, List.asString_inj, toDigits_eq_charsOf, toDigits_eq_charsOf] at h
  exact charsOf_inj m n h

theorem display_string_inj {m n : ℕ} (h : ":" ++ toString m = ":" ++ toString n) : m = n := by
  have hd := congrArg String.data h
  simp only [String.data_append, List.singleton_append] at hd
  exact nat_repr_inj (String.ext (List.cons.inj hd).2)

theorem dictInsert_of_not_mem {α : Type} (k : String) (v : α) (l : List (String × α))
    (h : k ∉ l.map Prod.fst) : dictInsert k v l = l ++ [(k, v)] := by
  induction l with
  | nil => rfl
  | cons p rest ih =>
    simp only [List.map_cons, List.mem_cons] at h
    push_neg at h
    rw [dictInsert]
    rw [if_neg (fun he => h.1 he.symm)]
    rw [ih h.2]
    simp

theorem setupGo_none_eq (buses : List String) :
    ∀ (d : ℕ) (dp : List (String × String)) (sv : List (String × ℕ)) (sp : List ℕ),
      buses.Nodup →
      (∀ b ∈ buses, b ∉ dp.map Prod.fst) →
      (∀ b ∈ buses, b ∉ sv.map Prod.fst) →
      setupGo none buses d dp sv sp =
        (dp ++ (List.enumFrom d buses).map (fun p => (p.2, ":" ++ toString p.1)),
         sv ++ (List.enumFrom d buses).map (fun p => (p.2, p.1)),
         sp ++ (List.enumFrom d buses).map Prod.fst,
         false) := by
  induction buses with
  | nil => intro d dp sv sp _ _ _; simp [setupGo]
  | cons bus rest ih =>
    intro d dp sv sp hnd hdp hsv
    rw [setupGo]
    rw [if_neg (by simp)]
    rw [dictInsert_of_not_mem bus _ dp (hdp bus (by simp)),
        dictInsert_of_not_mem bus d sv (hsv bus (by simp))]
    rw [ih (d + 1) (dp ++ [(bus, ":" ++ toString d)]) (sv ++ [(bus, d)]) (sp ++ [d])
        (List.Nodup.of_cons hnd)
        (by
          intro b hb
          simp only [List.map_append, List.mem_append, List.map_cons, List.map_nil,
            List.mem_singleton]
          push_neg
          exact ⟨hdp b (by simp [hb]), fun he =>
            (List.nodup_cons.mp hnd).1 (he ▸ hb)⟩)
        (by
          intro b hb
          simp only [List.map_append, List.mem_append, List.map_cons, List.map_nil,
            List.mem_singleton]
          push_neg
          exact ⟨hsv b (by simp [hb]), fun he =>
            (List.nodup_cons.mp hnd).1 (he ▸ hb)⟩)]
    simp [List.enumFrom_cons]

/-- C5: with distinct bus IDs, a failure-free `xservers` run spawns exactly one X-server
process per bus, does not raise, and yields the flat mapping sending the i-th bus (0-based)
to display `:i`; the display IDs in the mapping are pairwise distinct. -/
theorem xservers_one_server_per_bus (buses : List String) (h : buses.Nodup) :
    (xserversRun buses none).1 =
      (List.enum buses).map (fun p => (p.2, ":" ++ toString p.1)) ∧
    (xserversRun buses none).2.1 = List.range' 0 buses.length ∧
    (xserversRun buses none).2.1.length = buses.length ∧
    ((xserversRun buses none).1.map Prod.snd).Nodup ∧
    (xserversRun buses none).2.2.2 = false := by
  have he := setupGo_none_eq buses 0 [] [] [] h (by simp) (by simp)
  have hx : xserversRun buses none =
      ((List.enumFrom 0 buses).map (fun p => (p.2, ":" ++ toString p.1)),
       (List.enumFrom 0 buses).map Prod.fst,
       ((List.enumFrom 0 buses).map (fun p => (p.2, p.1))).map Prod.snd,
       false) := by
    rw [xserversRun, he]
    simp
  rw [hx]
  refine ⟨rfl, ?_, ?_, ?_, rfl⟩
  · simp [List.enumFrom_map_fst]
  · simp
  · have hfun : (Prod.snd ∘ fun p : ℕ × String => (p.2, ":" ++ toString p.1)) =
        (fun i => ":" ++ toString i) ∘ Prod.fst := funext fun p => rfl
    rw [List.map_map, hfun, ← List.map_map, List.enumFrom_map_fst]
    exact List.Nodup.map (fun a b hab => display_string_inj hab)
      (List.nodup_range' 0 buses.length)

theorem xservers_one_server_per_bus_witness :
    (xserversRun ["PCI:1:0:0", "PCI:2:0:0"] none).1 =
      (List.enum ["PCI:1:0:0", "PCI:2:0:0"]).map (fun p => (p.2, ":" ++ toString p.1)) ∧
    (xserversRun ["PCI:1:0:0", "PCI:2:0:0"] none).2.1 = List.range' 0 2 ∧
    (xserversRun ["PCI:1:0:0", "PCI:2:0:0"] none).2.1.length = 2 ∧
    ((xserversRun ["PCI:1:0:0", "PCI:2:0:0"] none).1.map Prod.snd).Nodup ∧
    (xserversRun ["PCI:1:0:0", "PCI:2:0:0"] none).2.2.2 = false :=
  xservers_one_server_per_bus ["PCI:1:0:0", "PCI:2:0:0"] (by decide)

theorem setupGo_spawned_terminated (failAt : Option ℕ) (buses : List String) :
    ∀ (d : ℕ) (dp : List (String × String)) (sv : List (String × ℕ)) (sp : List ℕ),
      buses.Nodup →
      (∀ b ∈ buses, b ∉ sv.map Prod.fst) →
      (∀ x ∈ sp, x ∈ sv.map Prod.snd) →
      ∀ x ∈ (setupGo failAt buses d dp sv sp).2.2.1,
        x ∈ (setupGo failAt buses d dp sv sp).2.1.map Prod.snd := by
  induction buses with
  | nil => intro d dp sv sp _ _ hsub x hx; rw [setupGo] at hx ⊢; exact hsub x hx
  | cons bus rest ih =>
    intro d dp sv sp hnd hsv hsub x hx
    rw [setupGo] at hx ⊢
    by_cases hf : failAt = some d
    · rw [if_pos hf] at hx ⊢
      exact hsub x hx
    · rw [if_neg hf] at hx ⊢
      refine ih (d + 1) _ (dictInsert bus d sv) (sp ++ [d]) (List.Nodup.of_cons hnd) ?_ ?_ x hx
      · intro b hb
        rw [dictInsert_of_not_mem bus d sv (hsv bus (by simp))]
        simp only [List.map_append, List.mem_append, List.map_cons, List.map_nil,
          List.mem_singleton]
        push_neg
        exact ⟨hsv b (by simp [hb]), fun he => (List.nodup_cons.mp hnd).1 (he ▸ hb)⟩
      · intro y hy
        rw [dictInsert_of_not_mem bus d sv (hsv bus (by simp))]
        simp only [List.map_append, List.mem_append, List.map_cons, List.map_nil,
          List.mem_singleton]
        rcases List.mem_append.mp hy with hy1 | hy2
        · exact Or.inl (hsub y hy1)
        · exact Or.inr (List.mem_singleton.mp hy2)

/-- C6: whenever control leaves the `xservers` context manager — normally, or because a
`Popen` call raised midway through setup, or because the body raised — `terminate()` is
called on every X-server process that was successfully spawned (with distinct bus IDs, so
no dict entry is overwritten). -/
theorem xservers_terminates_all_spawned (buses : List String) (failAt : Option ℕ)
    (h : buses.Nodup) :
    ∀ p ∈ (xserversRun buses failAt).2.1, p ∈ (xserversRun buses failAt).2.2.1 := by
  intro p hp
  rw [xserversRun] at hp ⊢
  exact setupGo_spawned_terminated failAt buses 0 [] [] [] h (by simp) (by simp) p hp

theorem xservers_terminates_all_spawned_witness :
    0 ∈ (xserversRun ["PCI:3:0:0", "PCI:4:0:0", "PCI:5:0:0"] (some 1)).2.2.1 :=
  xservers_terminates_all_spawned ["PCI:3:0:0", "PCI:4:0:0", "PCI:5:0:0"] (some 1)
    (by decide) 0 (by decide)

theorem processGPUs_cons (temps : String → Option ℤ) (setOk : String → Bool)
    (bus display : String) (rest : List (String × String)) (speeds : String → ℤ) :
    processGPUs temps setOk ((bus, display) :: rest) speeds =
      match temps bus with
      | none => ([], none)
      | some temp =>
        let s := (target_speed (speeds bus) temp).1
        if s ≠ speeds bus then
          if setOk display then
            let next := processGPUs temps setOk rest (fun b => if b = bus then s else speeds b)
            (FanEvent.readTemp bus temp :: FanEvent.setSpeed display s :: next.1, next.2)
          else ([FanEvent.readTemp bus temp], none)
        else
          let next := processGPUs temps setOk rest speeds
          (FanEvent.readTemp bus temp :: next.1, next.2) := rfl

theorem manageFansGo_succ (ds : List (String × String)) (temps : ℕ → String → Option ℤ)
    (setOk : ℕ → String → Bool) (fuel i : ℕ) (speeds : String → ℤ) :
    manageFansGo ds temps setOk (fuel + 1) i speeds =
      match processGPUs (temps i) (setOk i) ds speeds with
      | (evs, some speeds2) =>
        (evs ++ FanEvent.sleep 5 :: (manageFansGo ds temps setOk fuel (i + 1) speeds2).1,
         (manageFansGo ds temps setOk fuel (i + 1) speeds2).2)
      | (evs, none) => (evs ++ ds.map (fun p => FanEvent.release p.2), true) := rfl

theorem processGPUs_success (temps : String → Option ℤ) (setOk : String → Bool) :
    ∀ (ds : List (String × String)) (speeds : String → ℤ),
      (∀ p ∈ ds, (temps p.1).isSome = true) →
      (∀ p ∈ ds, setOk p.2 = true) →
      ∃ evs speeds2,
        processGPUs temps setOk ds speeds = (evs, some speeds2) ∧
        (∀ p ∈ ds, ∃ t, FanEvent.readTemp p.1 t ∈ evs) ∧
        (∀ n, FanEvent.sleep n ∉ evs) ∧
        (∀ d, FanEvent.release d ∉ evs) := by
  intro ds
  induction ds with
  | nil =>
    intro speeds _ _
    exact ⟨[], speeds, rfl, by simp, by simp, by simp⟩
  | cons p rest ih =>
    obtain ⟨bus, display⟩ := p
    intro speeds hT hS
    obtain ⟨temp, htemp⟩ := Option.isSome_iff_exists.mp (hT (bus, display) (by simp))
    by_cases hs : (target_speed (speeds bus) temp).1 ≠ speeds bus
    · have hok : setOk display = true := hS (bus, display) (by simp)
      obtain ⟨evs, sp2, heq, hread, hsleep, hrel⟩ :=
        ih (fun b => if b = bus then (target_speed (speeds bus) temp).1 else speeds b)
          (fun q hq => hT q (by simp [hq])) (fun q hq => hS q (by simp [hq]))
      refine ⟨FanEvent.readTemp bus temp ::
        FanEvent.setSpeed display (target_speed (speeds bus) temp).1 :: evs, sp2, ?_, ?_, ?_, ?_⟩
      · rw [processGPUs_cons, htemp]
        dsimp only
        rw [if_pos hs, if_pos hok, heq]
      · intro q hq
        rcases List.mem_cons.mp hq with hq1 | hq2
        · exact ⟨temp, by simp [hq1]⟩
        · obtain ⟨t, ht⟩ := hread q hq2
          exact ⟨t, by simp [ht]⟩
      · intro n
        simp [hsleep n]
      · intro d
        simp [hrel d]
    · obtain ⟨evs, sp2, heq, hread, hsleep, hrel⟩ :=
        ih speeds (fun q hq => hT q (by simp [hq])) (fun q hq => hS q (by simp [hq]))
      refine ⟨FanEvent.readTemp bus temp :: evs, sp2, ?_, ?_, ?_, ?_⟩
      · rw [processGPUs_cons, htemp]
        dsimp only
        rw [if_neg hs, heq]
      · intro q hq
        rcases List.mem_cons.mp hq with hq1 | hq2
        · exact ⟨temp, by simp [hq1]⟩
        · obtain ⟨t, ht⟩ := hread q hq2
          exact ⟨t, by simp [ht]⟩
      · intro n
        simp [hsleep n]
      · intro d
        simp [hrel d]

/-- C7: in every iteration of the `manage_fans` loop in which the external tools do not
raise, the loop processes every GPU in the `displays` mapping (reading its temperature) and
only then executes `time.sleep(5)`, after which the next iteration begins — polling happens
on a fixed 5-second interval. -/
theorem manage_fans_polls_then_sleeps (ds : List (String × String))
    (temps : ℕ → String → Option ℤ) (setOk : ℕ → String → Bool) (fuel i : ℕ)
    (speeds : String → ℤ)
    (hT : ∀ p ∈ ds, ((temps i) p.1).isSome = true)
    (hS : ∀ p ∈ ds, (setOk i) p.2 = true) :
    ∃ evs speeds2,
      processGPUs (temps i) (setOk i) ds speeds = (evs, some speeds2) ∧
      (∀ p ∈ ds, ∃ t, FanEvent.readTemp p.1 t ∈ evs) ∧
      (∀ n, FanEvent.sleep n ∉ evs) ∧
      manageFansGo ds temps setOk (fuel + 1) i speeds =
        (evs ++ FanEvent.sleep 5 :: (manageFansGo ds temps setOk fuel (i + 1) speeds2).1,
         (manageFansGo ds temps setOk fuel (i + 1) speeds2).2) := by
  obtain ⟨evs, sp2, heq, hread, hsleep, _⟩ := processGPUs_success (temps i) (setOk i) ds speeds hT hS
  refine ⟨evs, sp2, heq, hread, hsleep, ?_⟩
  rw [manageFansGo_succ, heq]

theorem manage_fans_polls_then_sleeps_witness :
    ∃ evs speeds2,
      processGPUs ((fun _ _ => some 60) 0) ((fun _ _ => true) 0) [("b1", ":0")] (fun _ => 0) =
        (evs, some speeds2) ∧
      (∀ p ∈ [("b1", ":0")], ∃ t, FanEvent.readTemp p.1 t ∈ evs) ∧
      (∀ n, FanEvent.sleep n ∉ evs) ∧
      manageFansGo [("b1", ":0")] (fun _ _ => some 60) (fun _ _ => true) (0 + 1) 0 (fun _ => 0) =
        (evs ++ FanEvent.sleep 5 ::
          (manageFansGo [("b1", ":0")] (fun _ _ => some 60) (fun _ _ => true) 0 1 speeds2).1,
         (manageFansGo [("b1", ":0")] (fun _ _ => some 60) (fun _ _ => true) 0 1 speeds2).2) :=
  manage_fans_polls_then_sleeps [("b1", ":0")] (fun _ _ => some 60) (fun _ _ => true) 0 0
    (fun _ => 0) (by decide) (by decide)

/-- C8: if reading the temperature or setting the speed for any one GPU raises during an
iteration, the `manage_fans` loop stops managing every GPU — its whole remaining trace is
just the events already emitted in that pass — and the `finally` block releases fan control
(`GPUFanControlState=0`) for every display in the mapping. -/
theorem manage_fans_error_releases_all (ds : List (String × String))
    (temps : ℕ → String → Option ℤ) (setOk : ℕ → String → Bool) (fuel i : ℕ)
    (speeds : String → ℤ)
    (h : (processGPUs (temps i) (setOk i) ds speeds).2 = none) :
    manageFansGo ds temps setOk (fuel + 1) i speeds =
      ((processGPUs (temps i) (setOk i) ds speeds).1 ++
        ds.map (fun p => FanEvent.release p.2), true) ∧
    ∀ p ∈ ds, FanEvent.release p.2 ∈ (manageFansGo ds temps setOk (fuel + 1) i speeds).1 := by
  have hpair : processGPUs (temps i) (setOk i) ds speeds =
      ((processGPUs (temps i) (setOk i) ds speeds).1, none) := by
    rw [← h]
  have hmain : manageFansGo ds temps setOk (fuel + 1) i speeds =
      ((processGPUs (temps i) (setOk i) ds speeds).1 ++
        ds.map (fun p => FanEvent.release p.2), true) := by
    rw [manageFansGo_succ, hpair]
  refine ⟨hmain, ?_⟩
  intro p hp
  rw [hmain]
  exact List.mem_append_right _ (List.mem_map.mpr ⟨p, hp, rfl⟩)

theorem manage_fans_error_releases_all_witness :
    manageFansGo [("busA", ":2"), ("busB", ":3")] (fun _ _ => none) (fun _ _ => true)
        (0 + 1) 0 (fun _ => 0) =
      ((processGPUs ((fun _ _ => (none : Option ℤ)) 0) ((fun _ _ => true) 0)
          [("busA", ":2"), ("busB", ":3")] (fun _ => 0)).1 ++
        [("busA", ":2"), ("busB", ":3")].map (fun p => FanEvent.release p.2), true) ∧
    ∀ p ∈ [("busA", ":2"), ("busB", ":3")],
      FanEvent.release p.2 ∈
        (manageFansGo [("busA", ":2"), ("busB", ":3")] (fun _ _ => none) (fun _ _ => true)
          (0 + 1) 0 (fun _ => 0)).1 :=
  manage_fans_error_releases_all [("busA", ":2"), ("busB", ":3")] (fun _ _ => none)
    (fun _ _ => true) 0 0 (fun _ => 0) rfl

end Fans
